import Mathlib

/-!
Verification of the MSP flight-controller client facade
(`src/inc/msp/FlightController.hpp`) against its design spec.

The repository sources contain only the facade header; the protocol engine
(`msp::client::Client`), the frame codec and the `.cpp` bodies of
`updateFeatures` / `arm_block` are not present.  Those parts are modelled
here from the spec (each such definition says so in its doc comment); the
inline facade members (`enableRxMSP`, `respond_raw`, `handle`, ...) are
embedded from the header itself.
-/

namespace Msp

/-! ## Frame codec (spec §4.1) -/

/-- Start-of-frame marker byte. -/
def MARKER : Nat := 36

/-- Checksum covering length, id and payload: XOR of all those bytes
(spec §4.1: "a checksum covering length+id+payload"). -/
def checksum (len id : Nat) (payload : List Nat) : Nat :=
  payload.foldl Nat.xor (Nat.xor len id)

/-- Modelled from the spec: `encode` of the Frame Codec (the client code is
not in the repository sources).  Assembles the start marker, the payload
length byte, the message-id byte, the payload bytes, and the trailing
checksum byte. -/
def encode (id : Nat) (payload : List Nat) : List Nat :=
  MARKER :: (payload.length % 256) :: (id % 256) :: payload
    ++ [checksum (payload.length % 256) (id % 256) payload]

/-- Result of decoding, with the distinguishable `FramingError` cases of
spec §4.1 (truncated, bad-checksum, unknown-marker). -/
inductive DecodeResult where
  | ok : Nat → List Nat → DecodeResult
  | truncated : DecodeResult
  | badChecksum : DecodeResult
  | unknownMarker : DecodeResult
deriving DecidableEq

/-- Modelled from the spec: the body of `decode` once the start marker has
been consumed — read length and id bytes, take the payload, compare the
computed checksum with the trailing checksum byte. -/
def decodeBody : List Nat → DecodeResult
  | len :: id :: rest =>
    if rest.length < len + 1 then DecodeResult.truncated
    else if checksum len id (rest.take len) = rest.getD len 0 then
      DecodeResult.ok id (rest.take len)
    else DecodeResult.badChecksum
  | _ => DecodeResult.truncated

/-- Modelled from the spec: `decode` of the Frame Codec.  If the start
marker is not at the expected offset it scans forward (resynchronisation);
a buffer with no marker at all is the unknown-marker framing error. -/
def decode : List Nat → DecodeResult
  | [] => DecodeResult.unknownMarker
  | b :: rest => if b = MARKER then decodeBody rest else decode rest

/-! ## Subscription registry and dispatch loop (spec §4.2) -/

/-- One frame on the wire: message id and payload bytes. -/
structure Frame where
  fid : Nat
  payload : List Nat
deriving DecidableEq

/-- Engine state seen by the Dispatch Loop: pending synchronous requests
(awaited id with a completion slot), the subscription table (id to a
callback token), and a log of the callback invocations performed. -/
structure EngineState where
  pending : List (Nat × Option (List Nat))
  subs : List (Nat × Nat)
  log : List (Nat × List Nat)
deriving DecidableEq

/-- Does a PendingRequest for this id exist? -/
def hasPendingFor (st : EngineState) (id : Nat) : Bool :=
  st.pending.any (fun q => q.1 == id)

/-- Fill the completion slot of the PendingRequest awaiting this id. -/
def completePending (pnd : List (Nat × Option (List Nat))) (id : Nat)
    (pl : List Nat) : List (Nat × Option (List Nat)) :=
  pnd.map (fun q => if q.1 == id then (q.1, some pl) else q)

/-- Look up the subscription callback token registered for an id. -/
def lookupSub (subs : List (Nat × Nat)) (id : Nat) : Option Nat :=
  (subs.find? (fun s => s.1 == id)).map (fun s => s.2)

/-- Where the Dispatch Loop routed a frame. -/
inductive Route where
  | toPending : Route
  | toSub : Route
  | dropped : Route
deriving DecidableEq

/-- Modelled from the spec: the Dispatch Loop body behind the facade's
`handle()` (`client.waitForOneMessage()` is not in the sources).  Routes
one frame: a PendingRequest for the id wins and is completed; otherwise a
subscription callback for the id is invoked (recorded in the log);
otherwise the frame is discarded without error (spec §4.2). -/
def dispatchOne (st : EngineState) (f : Frame) : EngineState × Route :=
  if hasPendingFor st f.fid then
    (⟨completePending st.pending f.fid f.payload, st.subs, st.log⟩, Route.toPending)
  else
    match lookupSub st.subs f.fid with
    | some _ => (⟨st.pending, st.subs, (f.fid, f.payload) :: st.log⟩, Route.toSub)
    | none => (st, Route.dropped)

/-- Modelled from the spec: `subscribe` registers or replaces the
subscription for an id (spec §4.2, §3: "registering a second subscription
for the same id replaces the first"). -/
def subscribeReg (subs : List (Nat × Nat)) (id cb : Nat) : List (Nat × Nat) :=
  (id, cb) :: subs.filter (fun s => s.1 ≠ id)

/-- Modelled from the spec: `hasSubscription`, a pure lookup. -/
def hasSubscription (subs : List (Nat × Nat)) (id : Nat) : Bool :=
  subs.any (fun s => s.1 == id)

/-- Modelled from the spec: `getSubscription`, a pure lookup. -/
def getSubscription (subs : List (Nat × Nat)) (id : Nat) : Option Nat :=
  lookupSub subs id

/-- Modelled from the spec: explicit unsubscribe removes the id's entry. -/
def unsubscribeReg (subs : List (Nat × Nat)) (id : Nat) : List (Nat × Nat) :=
  subs.filter (fun s => s.1 ≠ id)

/-- The registry invariant: at most one subscription per message id. -/
def uniquePerId (subs : List (Nat × Nat)) : Prop :=
  (subs.map Prod.fst).Nodup

/-! ## Request/response correlator (spec §4.4) -/

/-- Correlator state: the ids with an outstanding PendingRequest. -/
structure CorrState where
  pending : List Nat
deriving DecidableEq

/-- A new request for an id is accepted when no PendingRequest for that id
is outstanding (spec §3: at most one PendingRequest per MessageId). -/
def acceptsRequest (st : CorrState) (id : Nat) : Bool :=
  !(st.pending.contains id)

/-- Drive the dispatch loop: consume up to `fuel` incoming frames looking
for one whose id matches; each consumed frame costs one unit of the
timeout budget. -/
def requestLoop (id : Nat) : Nat → List Frame → Bool
  | 0, _ => false
  | _ + 1, [] => false
  | n + 1, f :: fs => if f.fid == id then true else requestLoop id n fs

/-- Modelled from the spec: the correlator behind the facade's `request`
(`client.request` is not in the sources).  Sends the request, parks a
PendingRequest for the id, repeatedly drives the Dispatch Loop until the
matching frame arrives or the timeout budget is exhausted, and destroys
the PendingRequest on completion or timeout (spec §4.4). -/
def request (st : CorrState) (id : Nat) (timeout : Nat) (frames : List Frame) :
    Bool × CorrState :=
  if st.pending.contains id then (false, st)
  else (requestLoop id timeout frames, ⟨(id :: st.pending).erase id⟩)

/-! ## Arm/disarm confirmation (spec §4.5) -/

/-- Poll loop: `armed i` is what the i-th status poll reports; returns
whether the expected flag was observed and how many polls were made. -/
def armLoop (armed : Nat → Bool) : Nat → Nat → Bool × Nat
  | 0, i => (false, i)
  | n + 1, i => if armed i then (true, i + 1) else armLoop armed n (i + 1)

/-- Modelled from the spec: `arm_block` (its `.cpp` body is not in the
sources) — send the arm command, then poll the status with a bounded
per-attempt timeout until the armed flag is observed or the outer deadline
(here: a poll budget) elapses; reaching the deadline is a reported
failure (spec §4.5). -/
def arm_block (armed : Nat → Bool) (deadline : Nat) : Bool × Nat :=
  armLoop armed deadline 0

/-! ## Feature-update sequence (spec §4.6) and facade members from src -/

/-- Success/failure of each request the three-step feature-update protocol
may issue: the fetch of the current bitset, the write of the new bitset,
the persist-to-EEPROM request, and the reboot request. -/
structure StepFlags where
  fetchOk : Bool
  writeOk : Bool
  persistOk : Bool
  rebootOk : Bool
deriving DecidableEq

/-- Outcome of `updateFeatures`: the int result (1 changed / 0 unchanged /
-1 failed, per the header doc), which effects were performed, and the
controller's effective feature set afterwards. -/
structure FeatureOutcome where
  result : Int
  wrote : Bool
  persisted : Bool
  rebooted : Bool
  features : Finset String
deriving DecidableEq

/-- Modelled from the spec: the implicit disables from the declared
mutual-exclusion groups — enabling one member of a group disables the
other members even if not listed in `remove` (spec §4.6). -/
def exclusions (groups : List (Finset String)) (add : Finset String) :
    Finset String :=
  groups.foldr (fun g acc => if (g ∩ add).Nonempty then acc ∪ (g \ add) else acc) ∅

/-- Modelled from the spec: step (2) of `updateFeatures` — OR in `add`,
AND-NOT `remove`, then resolve the mutual-exclusion groups. -/
def computeFeatures (groups : List (Finset String))
    (cur add remove : Finset String) : Finset String :=
  ((cur ∪ add) \ remove) \ exclusions groups add

/-- Modelled from the spec: `updateFeatures` (its `.cpp` body is not in
the sources).  Three steps: fetch the current bitset; compute the new one;
if it differs, write it, persist, reboot and report 1; if identical report
0 with no effects; any failed request reports -1 (spec §4.6 and the header
doc at `FlightController.hpp:206-208`). -/
def updateFeatures (groups : List (Finset String)) (flags : StepFlags)
    (cur add remove : Finset String) : FeatureOutcome :=
  if flags.fetchOk = false then ⟨-1, false, false, false, cur⟩
  else if computeFeatures groups cur add remove = cur then
    ⟨0, false, false, false, cur⟩
  else if flags.writeOk = false then ⟨-1, false, false, false, cur⟩
  else if flags.persistOk = false then ⟨-1, true, false, false, cur⟩
  else if flags.rebootOk = false then ⟨-1, true, true, false, cur⟩
  else ⟨1, true, true, true, computeFeatures groups cur add remove⟩

/-- The C++ implicit int-to-bool conversion: any nonzero value is `true`.
`enableRxMSP` in the header returns `bool` from an `int` expression, so
this conversion is applied to `updateFeatures`'s result. -/
def intToBool (i : Int) : Bool := decide (i ≠ 0)

/-- Embedded from `src/inc/msp/FlightController.hpp` lines 220-225:
`enableRxMSP` returns `updateFeatures({"RX_MSP"}, {"RX_PARALLEL_PWM",
"RX_PPM", "RX_SERIAL"})`, with the int result implicitly converted to the
declared `bool` return type. -/
def enableRxMSP (groups : List (Finset String)) (flags : StepFlags)
    (cur : Finset String) : Bool :=
  intToBool (updateFeatures groups flags cur {"RX_MSP"}
    {"RX_PARALLEL_PWM", "RX_PPM", "RX_SERIAL"}).result

/-- Embedded from `src/inc/msp/FlightController.hpp` lines 98-100:
`respond_raw(id, data, wait_ack)` forwards only `id` and `data` to
`client.respond_raw`; the `wait_ack` argument is dropped.  The client call
is abstracted as a function parameter. -/
def respond_raw (clientRespondRaw : Nat → List Nat → Bool) (id : Nat)
    (data : List Nat) (wait_ack : Bool) : Bool :=
  clientRespondRaw id data

end Msp

namespace Msp

/-! ## Helper lemmas -/

/-- A request loop that sees no matching frame id within its timeout budget
reports failure. -/
theorem requestLoop_no_match (id : Nat) :
    ∀ (t : Nat) (frames : List Frame),
      (∀ f ∈ frames.take t, f.fid ≠ id) → requestLoop id t frames = false := by
  intro t
  induction t with
  | zero => intro frames _; rfl
  | succ n ih =>
    intro frames h
    cases frames with
    | nil => rfl
    | cons f fs =>
      have hf : f.fid ≠ id := h f (by simp)
      have hrec : requestLoop id n fs = false := by
        refine ih fs (fun g hg => h g ?_)
        simp only [List.take_succ_cons, List.mem_cons]
        exact Or.inr hg
      simp [requestLoop, hf, hrec]

/-- A poll loop over a stream that never reports the expected flag runs to
the end of its fuel and reports failure, having made `fuel` polls. -/
theorem armLoop_never (armed : Nat → Bool) (h : ∀ i, armed i = false) :
    ∀ (n i : Nat), armLoop armed n i = (false, i + n) := by
  intro n
  induction n with
  | zero => intro i; simp [armLoop]
  | succ m ih =>
    intro i
    have hstep : armLoop armed (m + 1) i = armLoop armed m (i + 1) := by
      simp [armLoop, h i]
    rw [hstep, ih (i + 1), Prod.mk.injEq]
    exact ⟨rfl, by omega⟩

end Msp

namespace Msp

/-- A lookup for id `j` ignores table entries whose key was filtered out,
provided the filtered key differs from `j`. -/
theorem find_skips_filtered (id j : Nat) (hne : j ≠ id) :
    ∀ subs : List (Nat × Nat),
      (subs.filter (fun s => s.1 ≠ id)).find? (fun s => s.1 == j) =
        subs.find? (fun s => s.1 == j) := by
  intro subs
  induction subs with
  | nil => rfl
  | cons s t ih =>
    by_cases hs : s.1 = id
    · have hsj : (s.1 == j) = false := by
        rw [hs, beq_eq_false_iff_ne]
        exact fun h => hne h.symm
      rw [List.filter_cons_of_neg (by simp [hs]), ih]
      simp only [List.find?_cons, hsj]
    · rw [List.filter_cons_of_pos (by simp [hs])]
      by_cases hj : s.1 = j
      · have hpj : (s.1 == j) = true := by simp [hj]
        simp only [List.find?_cons, hpj]
      · have hpj : (s.1 == j) = false := by simp [hj]
        simp only [List.find?_cons, hpj, ih]

end Msp

namespace Msp

/-- Claim C1: the claim says `enableRxMSP` never reports a failed feature
update (`updateFeatures` outcome -1) as success.  The code violates this:
`enableRxMSP` returns `bool` from the `int` result, and C++ converts -1 to
`true`.  Evaluated at a state where the initial feature fetch fails:
`updateFeatures` reports -1 yet `enableRxMSP` returns `true`. -/
theorem enableRxMSP_swallows_failure :
    (updateFeatures [] ⟨false, true, true, true⟩ ∅ {"RX_MSP"}
      {"RX_PARALLEL_PWM", "RX_PPM", "RX_SERIAL"}).result = -1 ∧
    enableRxMSP [] ⟨false, true, true, true⟩ ∅ = true := by
  constructor
  · rfl
  · rfl

/-- Claim C3: each frame handed to the Dispatch Loop is routed to at most
one consumer — an outstanding PendingRequest for the frame's id wins and
the subscription callback is then not invoked; only without a
PendingRequest is the subscription callback invoked; with neither, the
frame is discarded without error. -/
theorem dispatchOne_at_most_one_consumer (st : EngineState) (f : Frame) :
    (hasPendingFor st f.fid = true →
      (dispatchOne st f).2 = Route.toPending ∧ (dispatchOne st f).1.log = st.log) ∧
    (hasPendingFor st f.fid = false → (lookupSub st.subs f.fid).isSome = true →
      (dispatchOne st f).2 = Route.toSub ∧
      (dispatchOne st f).1.pending = st.pending ∧
      (dispatchOne st f).1.log = (f.fid, f.payload) :: st.log) ∧
    (hasPendingFor st f.fid = false → lookupSub st.subs f.fid = none →
      dispatchOne st f = (st, Route.dropped)) := by
  refine ⟨fun hp => ?_, fun hp hs => ?_, fun hp hs => ?_⟩
  · simp [dispatchOne, hp]
  · rcases ho : lookupSub st.subs f.fid with _ | cb
    · rw [ho] at hs; simp at hs
    · simp [dispatchOne, hp, ho]
  · simp [dispatchOne, hp, hs]

/-- Witness for C3 at a concrete state holding both a PendingRequest and a
subscription for id 7: the frame goes to the PendingRequest and no
callback is logged. -/
theorem dispatchOne_at_most_one_consumer_witness :
    (dispatchOne ⟨[(7, none)], [(7, 99)], []⟩ ⟨7, [1, 2]⟩).2 = Route.toPending ∧
    (dispatchOne ⟨[(7, none)], [(7, 99)], []⟩ ⟨7, [1, 2]⟩).1.log = [] :=
  (dispatchOne_at_most_one_consumer ⟨[(7, none)], [(7, 99)], []⟩ ⟨7, [1, 2]⟩).1 (by decide)

/-- Claim C4: a `request` whose timeout budget sees no matching frame
returns failure, the PendingRequest for the id is gone afterwards, and a
new request for the same id is immediately accepted. -/
theorem request_timeout_releases (st : CorrState) (id timeout : Nat)
    (frames : List Frame) (hacc : acceptsRequest st id = true)
    (hmiss : ∀ f ∈ frames.take timeout, f.fid ≠ id) :
    (request st id timeout frames).1 = false ∧
    (request st id timeout frames).2.pending.contains id = false ∧
    acceptsRequest (request st id timeout frames).2 id = true := by
  have hc : st.pending.contains id = false := by
    simpa [acceptsRequest] using hacc
  have hloop := requestLoop_no_match id timeout frames hmiss
  have hmem : id ∉ st.pending := by simpa using hc
  simp [request, hc, hloop, List.erase_cons_head, acceptsRequest, hmem]

/-- Witness for C4: with no outstanding requests and a non-matching frame
stream, a request for id 1 with timeout 2 fails and id 1 is accepted again. -/
theorem request_timeout_releases_witness :
    (request ⟨[]⟩ 1 2 [⟨2, []⟩, ⟨3, []⟩]).1 = false ∧
    (request ⟨[]⟩ 1 2 [⟨2, []⟩, ⟨3, []⟩]).2.pending.contains 1 = false ∧
    acceptsRequest (request ⟨[]⟩ 1 2 [⟨2, []⟩, ⟨3, []⟩]).2 1 = true :=
  request_timeout_releases ⟨[]⟩ 1 2 [⟨2, []⟩, ⟨3, []⟩] (by decide) (by decide)

/-- Claim C6: `arm_block` terminates in all cases — with a status stream
armed only from the 4th poll on (the first three polls report unarmed) it
succeeds with at least 3 polls, and with a never-armed stream it reports
failure once the outer deadline (poll budget) elapses rather than hanging
or silently succeeding. -/
theorem arm_block_terminates (deadline : Nat) (hd : 4 ≤ deadline)
    (never : Nat → Bool) (hn : ∀ i, never i = false) :
    ((arm_block (fun i => decide (3 ≤ i)) deadline).1 = true ∧
      3 ≤ (arm_block (fun i => decide (3 ≤ i)) deadline).2) ∧
    (arm_block never deadline).1 = false := by
  constructor
  · obtain ⟨k, hk⟩ := Nat.exists_eq_add_of_le hd
    rw [hk, Nat.add_comm, arm_block]
    have h4 : armLoop (fun i => decide (3 ≤ i)) (k + 4) 0 = (true, 4) := by
      show armLoop (fun i => decide (3 ≤ i)) (k + 3 + 1) 0 = (true, 4)
      rw [armLoop]
      norm_num
      show armLoop (fun i => decide (3 ≤ i)) (k + 2 + 1) 1 = (true, 4)
      rw [armLoop]
      norm_num
      show armLoop (fun i => decide (3 ≤ i)) (k + 1 + 1) 2 = (true, 4)
      rw [armLoop]
      norm_num
      show armLoop (fun i => decide (3 ≤ i)) (k + 1) 3 = (true, 4)
      rw [armLoop]
      norm_num
    rw [h4]
    exact ⟨rfl, by norm_num⟩
  · rw [arm_block, armLoop_never never hn]

/-- Witness for C6 at deadline 4 and the constantly-false stream. -/
theorem arm_block_terminates_witness :
    ((arm_block (fun i => decide (3 ≤ i)) 4).1 = true ∧
      3 ≤ (arm_block (fun i => decide (3 ≤ i)) 4).2) ∧
    (arm_block (fun _ => false) 4).1 = false :=
  arm_block_terminates 4 (by decide) (fun _ => false) (fun _ => rfl)

/-- Claim C7: at most one subscription per id — a second `subscribe` for
the same id replaces the first (`hasSubscription` stays true and
`getSubscription` yields the new callback), the one-per-id invariant is
preserved, other ids' subscriptions are untouched, and explicit
unsubscribe removes the entry. -/
theorem subscribe_replaces (subs : List (Nat × Nat)) (id cb1 cb2 : Nat)
    (h : uniquePerId subs) :
    hasSubscription (subscribeReg (subscribeReg subs id cb1) id cb2) id = true ∧
    getSubscription (subscribeReg (subscribeReg subs id cb1) id cb2) id = some cb2 ∧
    uniquePerId (subscribeReg (subscribeReg subs id cb1) id cb2) ∧
    (∀ j, j ≠ id →
      getSubscription (subscribeReg subs id cb1) j = getSubscription subs j) ∧
    hasSubscription (unsubscribeReg (subscribeReg subs id cb1) id) id = false := by
  refine ⟨?_, ?_, ?_, ?_, ?_⟩
  · simp [hasSubscription, subscribeReg]
  · simp [getSubscription, lookupSub, subscribeReg, List.find?_cons]
  · have hsub : ∀ l : List (Nat × Nat), uniquePerId l → uniquePerId (subscribeReg l id cb2) := by
      intro l hl
      simp only [uniquePerId, subscribeReg, List.map_cons, List.nodup_cons]
      constructor
      · intro hmem
        obtain ⟨s, hsmem, hfst⟩ := List.mem_map.mp hmem
        have := List.of_mem_filter hsmem
        simp [hfst] at this
      · exact ((List.filter_sublist l).map Prod.fst).nodup hl
    have h1 : uniquePerId (subscribeReg subs id cb1) := by
      have := hsub subs h
      simpa [uniquePerId, subscribeReg] using this
    have := hsub (subscribeReg subs id cb1) h1
    simpa [uniquePerId] using this
  · intro j hj
    simp only [getSubscription, lookupSub, subscribeReg]
    rw [List.find?_cons]
    have : ((id, cb1).1 == j) = false := by
      simp
      exact fun hh => hj hh.symm
    rw [this, find_skips_filtered id j hj subs]
  · simp only [hasSubscription, unsubscribeReg]
    rw [List.any_eq_false]
    intro s hsmem
    have := List.of_mem_filter hsmem
    simp at this ⊢
    exact this

/-- Witness for C7 on a concrete registry. -/
theorem subscribe_replaces_witness :
    uniquePerId [(1, 10)] ∧
    getSubscription (subscribeReg (subscribeReg [(1, 10)] 2 5) 2 6) 2 = some 6 :=
  ⟨by unfold uniquePerId; decide,
    ((subscribe_replaces [(1, 10)] 2 5 6 (by unfold uniquePerId; decide)).2).1⟩

/-- Claim C10: `respond_raw(id, data, wait_ack)` behaves identically for
`wait_ack = true` and `wait_ack = false` — the header forwards only `id`
and `data` to the client, so no acknowledgement is awaited in either case. -/
theorem respond_raw_ignores_wait_ack (clientRespondRaw : Nat → List Nat → Bool)
    (id : Nat) (data : List Nat) :
    respond_raw clientRespondRaw id data true = respond_raw clientRespondRaw id data false :=
  rfl

end Msp

namespace Msp

/-- Resolving exclusion groups never disables a feature that is being
added: the implicit removals are drawn from `g \ add`. -/
theorem mem_add_not_mem_exclusions (groups : List (Finset String))
    (add : Finset String) (x : String) (hx : x ∈ add) :
    x ∉ exclusions groups add := by
  induction groups with
  | nil => simp [exclusions]
  | cons g t ih =>
    simp only [exclusions, List.foldr_cons]
    by_cases hg : (g ∩ add).Nonempty
    · rw [if_pos hg]
      intro hmem
      rcases Finset.mem_union.mp hmem with hl | hr
      · exact ih hl
      · exact (Finset.mem_sdiff.mp hr).2 hx
    · rw [if_neg hg]
      exact ih

/-- An added feature is present in the computed bitset when it is not
explicitly removed. -/
theorem mem_computeFeatures (groups : List (Finset String))
    (cur add remove : Finset String) (x : String) (hx : x ∈ add)
    (hr : x ∉ remove) : x ∈ computeFeatures groups cur add remove := by
  simp only [computeFeatures, Finset.mem_sdiff, Finset.mem_union]
  exact ⟨⟨Or.inr hx, hr⟩, mem_add_not_mem_exclusions groups add x hx⟩

/-- Claim C2: `updateFeatures` reports 1 exactly when the computed bitset
differs from the fetched one (then it writes, persists and reboots),
reports 0 exactly when they are identical (then nothing is written,
persisted or rebooted), and any failing request among the steps that run
yields the distinct -1 outcome, never 0. -/
theorem updateFeatures_reports (groups : List (Finset String)) (flags : StepFlags)
    (cur add remove : Finset String) :
    (flags = ⟨true, true, true, true⟩ →
      ((updateFeatures groups flags cur add remove).result = 1 ↔
        computeFeatures groups cur add remove ≠ cur) ∧
      ((updateFeatures groups flags cur add remove).result = 1 →
        (updateFeatures groups flags cur add remove).wrote = true ∧
        (updateFeatures groups flags cur add remove).persisted = true ∧
        (updateFeatures groups flags cur add remove).rebooted = true) ∧
      ((updateFeatures groups flags cur add remove).result = 0 ↔
        computeFeatures groups cur add remove = cur) ∧
      ((updateFeatures groups flags cur add remove).result = 0 →
        (updateFeatures groups flags cur add remove).wrote = false ∧
        (updateFeatures groups flags cur add remove).persisted = false ∧
        (updateFeatures groups flags cur add remove).rebooted = false)) ∧
    ((flags.fetchOk = false ∨
        (computeFeatures groups cur add remove ≠ cur ∧
          (flags.writeOk = false ∨ flags.persistOk = false ∨ flags.rebootOk = false))) →
      (updateFeatures groups flags cur add remove).result = -1) := by
  obtain ⟨f1, f2, f3, f4⟩ := flags
  by_cases hnew : computeFeatures groups cur add remove = cur
  all_goals cases f1 <;> cases f2 <;> cases f3 <;> cases f4 <;>
    simp_all [updateFeatures]

/-- Witness for C2: adding a fresh feature to the empty bitset reports 1. -/
theorem updateFeatures_reports_witness :
    (updateFeatures [] ⟨true, true, true, true⟩ ∅ {"X"} ∅).result = 1 :=
  (((updateFeatures_reports [] ⟨true, true, true, true⟩ ∅ {"X"} ∅).1 rfl).1).mpr
    (by decide)

/-- Claim C5: with all requests succeeding, `updateFeatures({"X"}, {})`
from a state not yet containing X reports 1 (changed), and repeating the
call on the resulting feature set reports 0 (unchanged) with no write,
no persist-to-EEPROM and no reboot. -/
theorem updateFeatures_idempotent (groups : List (Finset String))
    (cur : Finset String) (X : String) (hX : X ∉ cur) :
    (updateFeatures groups ⟨true, true, true, true⟩ cur {X} ∅).result = 1 ∧
    (updateFeatures groups ⟨true, true, true, true⟩
      (updateFeatures groups ⟨true, true, true, true⟩ cur {X} ∅).features
      {X} ∅).result = 0 ∧
    (updateFeatures groups ⟨true, true, true, true⟩
      (updateFeatures groups ⟨true, true, true, true⟩ cur {X} ∅).features
      {X} ∅).wrote = false ∧
    (updateFeatures groups ⟨true, true, true, true⟩
      (updateFeatures groups ⟨true, true, true, true⟩ cur {X} ∅).features
      {X} ∅).persisted = false ∧
    (updateFeatures groups ⟨true, true, true, true⟩
      (updateFeatures groups ⟨true, true, true, true⟩ cur {X} ∅).features
      {X} ∅).rebooted = false := by
  have hmem : X ∈ computeFeatures groups cur {X} ∅ :=
    mem_computeFeatures groups cur {X} ∅ X (Finset.mem_singleton_self X)
      (Finset.not_mem_empty X)
  have hne : computeFeatures groups cur {X} ∅ ≠ cur := by
    intro h
    rw [h] at hmem
    exact hX hmem
  have hfirst : updateFeatures groups ⟨true, true, true, true⟩ cur {X} ∅ =
      ⟨1, true, true, true, computeFeatures groups cur {X} ∅⟩ := by
    simp [updateFeatures, hne]
  have hfix : computeFeatures groups (computeFeatures groups cur {X} ∅) {X} ∅ =
      computeFeatures groups cur {X} ∅ := by
    have hXsub : {X} ⊆ computeFeatures groups cur {X} ∅ :=
      Finset.singleton_subset_iff.mpr hmem
    calc computeFeatures groups (computeFeatures groups cur {X} ∅) {X} ∅
        = (computeFeatures groups cur {X} ∅ ∪ {X}) \ exclusions groups {X} := by
          simp [computeFeatures]
      _ = computeFeatures groups cur {X} ∅ \ exclusions groups {X} := by
          rw [Finset.union_eq_left.mpr hXsub]
      _ = (((cur ∪ {X}) \ ∅) \ exclusions groups {X}) \ exclusions groups {X} := by
          rw [computeFeatures]
      _ = ((cur ∪ {X}) \ ∅) \ exclusions groups {X} := sdiff_idem
      _ = computeFeatures groups cur {X} ∅ := by rw [computeFeatures]
  rw [hfirst]
  refine ⟨rfl, ?_, ?_, ?_, ?_⟩ <;> simp [updateFeatures, hfix]

/-- Witness for C5 at the empty initial bitset and feature "X". -/
theorem updateFeatures_idempotent_witness :
    ("X" ∉ (∅ : Finset String)) ∧
    ((updateFeatures [] ⟨true, true, true, true⟩ ∅ {"X"} ∅).result = 1 ∧
      (updateFeatures [] ⟨true, true, true, true⟩
        (updateFeatures [] ⟨true, true, true, true⟩ ∅ {"X"} ∅).features
        {"X"} ∅).result = 0 ∧
      (updateFeatures [] ⟨true, true, true, true⟩
        (updateFeatures [] ⟨true, true, true, true⟩ ∅ {"X"} ∅).features
        {"X"} ∅).wrote = false ∧
      (updateFeatures [] ⟨true, true, true, true⟩
        (updateFeatures [] ⟨true, true, true, true⟩ ∅ {"X"} ∅).features
        {"X"} ∅).persisted = false ∧
      (updateFeatures [] ⟨true, true, true, true⟩
        (updateFeatures [] ⟨true, true, true, true⟩ ∅ {"X"} ∅).features
        {"X"} ∅).rebooted = false) :=
  ⟨by decide, updateFeatures_idempotent [] ∅ "X" (by decide)⟩

end Msp


namespace Msp

/-! ## Codec lemmas -/

/-- Folding XOR from an arbitrary seed factors the seed out. -/
theorem foldl_xor_init (l : List Nat) : ∀ a : Nat,
    l.foldl (· ^^^ ·) a = a ^^^ l.foldl (· ^^^ ·) 0 := by
  induction l with
  | nil => intro a; simp
  | cons b t ih =>
    intro a
    simp only [List.foldl_cons]
    rw [ih (a ^^^ b), ih (0 ^^^ b), Nat.zero_xor, Nat.xor_assoc]

/-- XOR is left-cancellative. -/
theorem xor_left_cancel (a b c : Nat) (h : a ^^^ b = a ^^^ c) : b = c := by
  have h2 : a ^^^ (a ^^^ b) = a ^^^ (a ^^^ c) := by rw [h]
  rwa [← Nat.xor_assoc, ← Nat.xor_assoc, Nat.xor_self, Nat.zero_xor, Nat.zero_xor] at h2

/-- XOR is right-cancellative. -/
theorem xor_right_cancel (a b c : Nat) (h : a ^^^ c = b ^^^ c) : a = b := by
  rw [Nat.xor_comm a c, Nat.xor_comm b c] at h
  exact xor_left_cancel c a b h

/-- The checksum decomposes as the XOR of the header bytes with the XOR
of the payload bytes. -/
theorem checksum_eq (len id : Nat) (payload : List Nat) :
    checksum len id payload = (len ^^^ id) ^^^ payload.foldl (· ^^^ ·) 0 :=
  foldl_xor_init payload (len ^^^ id)

/-- XOR-folding a list with one distinguished element factors into the
XOR of the prefix, the element, and the suffix. -/
theorem foldl_xor_around (u w : List Nat) (v : Nat) :
    (u ++ v :: w).foldl (· ^^^ ·) 0 =
      u.foldl (· ^^^ ·) 0 ^^^ (v ^^^ w.foldl (· ^^^ ·) 0) := by
  rw [List.foldl_append, foldl_xor_init (v :: w) (u.foldl (· ^^^ ·) 0)]
  congr 1
  simp only [List.foldl_cons]
  rw [Nat.zero_xor]
  exact foldl_xor_init w v

/-- Changing a single payload byte changes the checksum. -/
theorem checksum_ne_of_payload_byte_ne (len id v b : Nat) (u w : List Nat)
    (hne : v ≠ b) :
    checksum len id (u ++ v :: w) ≠ checksum len id (u ++ b :: w) := by
  intro h
  rw [checksum_eq, checksum_eq, foldl_xor_around, foldl_xor_around] at h
  exact hne (xor_right_cancel _ _ _ (xor_left_cancel _ _ _ (xor_left_cancel _ _ _ h)))

/-- Changing the id byte changes the checksum. -/
theorem checksum_ne_of_id_ne (len v i : Nat) (P : List Nat) (hne : v ≠ i) :
    checksum len v P ≠ checksum len i P := by
  intro h
  rw [checksum_eq, checksum_eq] at h
  exact hne (xor_left_cancel _ _ _ (xor_right_cancel _ _ _ h))

/-- Evaluation of `decodeBody` on a well-shaped buffer: the result is
decided by the checksum comparison alone. -/
theorem decodeBody_eq (len i c : Nat) (P : List Nat) (hP : P.length = len) :
    decodeBody (len :: i :: (P ++ [c])) =
      if checksum len i P = c then DecodeResult.ok i P
      else DecodeResult.badChecksum := by
  have hno : ¬((P ++ [c]).length < len + 1) := by simp [hP]
  have htake : (P ++ [c]).take len = P := by
    rw [← hP]
    exact List.take_left P [c]
  have hgetD : (P ++ [c]).getD len 0 = c := by
    rw [← hP]
    simp [List.getD_eq_getElem?_getD, List.getElem?_append_right]
  simp only [decodeBody]
  rw [if_neg hno, htake, hgetD]

/-- Claim C8: round-trip — decoding the encoding of any frame whose id and
payload length fit in one byte returns the original id and payload. -/
theorem decode_encode_roundtrip (id : Nat) (payload : List Nat) (hid : id < 256)
    (hlen : payload.length < 256) :
    decode (encode id payload) = DecodeResult.ok id payload := by
  have hidm : id % 256 = id := Nat.mod_eq_of_lt hid
  have hlm : payload.length % 256 = payload.length := Nat.mod_eq_of_lt hlen
  simp only [encode, hidm, hlm]
  show decode (MARKER :: payload.length :: id :: (payload
    ++ [checksum payload.length id payload])) = DecodeResult.ok id payload
  have hstep : decode (MARKER :: payload.length :: id :: (payload
      ++ [checksum payload.length id payload])) =
      decodeBody (payload.length :: id :: (payload
        ++ [checksum payload.length id payload])) := by
    simp [decode]
  rw [hstep, decodeBody_eq _ _ _ _ rfl, if_pos rfl]

/-- Witness for C8 on a concrete frame. -/
theorem decode_encode_roundtrip_witness :
    decode (encode 5 [7, 3]) = DecodeResult.ok 5 [7, 3] :=
  decode_encode_roundtrip 5 [7, 3] (by decide) (by decide)

end Msp

namespace Msp

/-- Corrupting one byte of a well-shaped frame at any position from the id
byte onwards makes `decodeBody` report the bad-checksum error. -/
theorem decode_set_core (i v k : Nat) (payload : List Nat)
    (hk : k < payload.length + 2)
    (hne : v ≠ (i :: (payload ++ [checksum payload.length i payload])).getD k 0) :
    decode (MARKER :: payload.length ::
      ((i :: (payload ++ [checksum payload.length i payload])).set k v)) =
      DecodeResult.badChecksum := by
  have hdec : ∀ rest : List Nat,
      decode (MARKER :: payload.length :: rest) = decodeBody (payload.length :: rest) := by
    intro rest
    simp [decode]
  cases k with
  | zero =>
    have hne2 : v ≠ i := by simpa using hne
    have hset0 : (i :: (payload ++ [checksum payload.length i payload])).set 0 v
        = v :: (payload ++ [checksum payload.length i payload]) := rfl
    rw [hset0, hdec, decodeBody_eq _ _ _ _ rfl,
      if_neg (checksum_ne_of_id_ne payload.length v i payload hne2)]
  | succ j =>
    have hsetstep : (i :: (payload ++ [checksum payload.length i payload])).set (j + 1) v
        = i :: ((payload ++ [checksum payload.length i payload]).set j v) := rfl
    have hgetstep : (i :: (payload ++ [checksum payload.length i payload])).getD (j + 1) 0
        = (payload ++ [checksum payload.length i payload]).getD j 0 := rfl
    rw [hsetstep]
    rw [hgetstep] at hne
    rcases Nat.lt_or_ge j payload.length with hj | hj
    · have hb : (payload ++ [checksum payload.length i payload]).getD j 0
          = payload.getD j 0 := by
        simp [List.getD_eq_getElem?_getD, List.getElem?_append, hj]
      rw [hb] at hne
      have hsplit : payload = payload.take j ++ payload.getD j 0 :: payload.drop (j + 1) := by
        conv_lhs => rw [← List.take_append_drop j payload]
        rw [List.drop_eq_getElem_cons hj]
        simp [List.getD_eq_getElem?_getD, List.getElem?_eq_getElem hj]
      have hset2 : (payload ++ [checksum payload.length i payload]).set j v
          = (payload.take j ++ v :: payload.drop (j + 1))
            ++ [checksum payload.length i payload] := by
        rw [List.set_append, if_pos hj, List.set_eq_take_cons_drop v hj]
      rw [hset2, hdec]
      have hlen2 : (payload.take j ++ v :: payload.drop (j + 1)).length = payload.length := by
        simp only [List.length_append, List.length_cons, List.length_take, List.length_drop]
        omega
      rw [decodeBody_eq _ _ _ _ hlen2]
      refine if_neg ?_
      have hckrw : checksum payload.length i payload
          = checksum payload.length i
            (payload.take j ++ payload.getD j 0 :: payload.drop (j + 1)) :=
        congrArg (checksum payload.length i) hsplit
      rw [hckrw]
      exact checksum_ne_of_payload_byte_ne _ _ _ _ _ _ hne
    · have hjeq : j = payload.length := by omega
      subst hjeq
      have hck : (payload ++ [checksum payload.length i payload]).getD payload.length 0
          = checksum payload.length i payload := by
        simp [List.getD_eq_getElem?_getD, List.getElem?_append_right]
      rw [hck] at hne
      have hset2 : (payload ++ [checksum payload.length i payload]).set payload.length v
          = payload ++ [v] := by
        rw [List.set_append]
        simp
      rw [hset2, hdec, decodeBody_eq _ _ _ _ rfl]
      exact if_neg (fun hcontra => hne hcontra.symm)

/-- Claim C9 (counterexample): the claim says every single-byte corruption
at a non-padding position makes `decode` return a checksum FramingError.
Corrupting the length byte of the encoded frame [36,2,5,7,3,3] from 2 to 1
makes `decode` succeed with a different frame (id 5, payload [7]), and
corrupting the start-marker byte yields the unknown-marker error — neither
is a checksum error. -/
theorem decode_flip_counterexample :
    encode 5 [7, 3] = [36, 2, 5, 7, 3, 3] ∧
    decode ((encode 5 [7, 3]).set 1 1) = DecodeResult.ok 5 [7] ∧
    decode ((encode 5 [7, 3]).set 0 37) = DecodeResult.unknownMarker := by
  refine ⟨by decide, by decide, by decide⟩

/-- Claim C9 (amended): flipping a single byte of an encoded frame at any
checksum-covered position other than the length byte — the id byte, a
payload byte, or the trailing checksum byte — makes `decode` return the
bad-checksum FramingError.  Corruptions of the start marker or of the
length byte are excluded: they can produce a different framing error or
even a successfully parsed different frame. -/
theorem decode_flip_covered_byte (id : Nat) (payload : List Nat) (p v : Nat)
    (hlen : payload.length < 256) (hp2 : 2 ≤ p)
    (hpl : p < (encode id payload).length)
    (hne : v ≠ (encode id payload).getD p 0) :
    decode ((encode id payload).set p v) = DecodeResult.badChecksum := by
  have hlm : payload.length % 256 = payload.length := Nat.mod_eq_of_lt hlen
  have henc : encode id payload = MARKER :: payload.length :: ((id % 256) ::
      (payload ++ [checksum payload.length (id % 256) payload])) := by
    simp only [encode, hlm]
    rfl
  obtain ⟨k, hk⟩ := Nat.exists_eq_add_of_le hp2
  subst hk
  rw [henc] at hpl hne ⊢
  have hlenf : (MARKER :: payload.length :: ((id % 256) ::
      (payload ++ [checksum payload.length (id % 256) payload]))).length
      = payload.length + 4 := by
    simp
  rw [hlenf] at hpl
  have hk2 : k < payload.length + 2 := by omega
  have hset : (MARKER :: payload.length :: ((id % 256) ::
      (payload ++ [checksum payload.length (id % 256) payload]))).set (2 + k) v
      = MARKER :: payload.length :: (((id % 256) ::
        (payload ++ [checksum payload.length (id % 256) payload])).set k v) := by
    rw [Nat.add_comm]
    rfl
  have hgetD : (MARKER :: payload.length :: ((id % 256) ::
      (payload ++ [checksum payload.length (id % 256) payload]))).getD (2 + k) 0
      = ((id % 256) ::
        (payload ++ [checksum payload.length (id % 256) payload])).getD k 0 := by
    rw [Nat.add_comm]
    rfl
  rw [hset]
  rw [hgetD] at hne
  exact decode_set_core (id % 256) v k payload hk2 hne

/-- Witness for the amended C9: flipping the first payload byte of the
frame [36,2,5,7,3,3] from 7 to 8 yields the bad-checksum error. -/
theorem decode_flip_covered_byte_witness :
    decode ((encode 5 [7, 3]).set 3 8) = DecodeResult.badChecksum :=
  decode_flip_covered_byte 5 [7, 3] 3 8 (by decide) (by decide) (by decide) (by decide)

end Msp
